import Mathlib

/-!
Verification of the MiraeAsset AI financial-insight frontend and its
agent-orchestration workflow specification.

The definitions below are shallow embeddings of:
* `Frontend/src/pages/Chatbot/Chatbot.js` (the SSE streaming version):
  the `sendMessageToAPI` stream handlers (`onmessage` / `onerror`),
  `handleSendMessage`, and `handleProfileSetupComplete`;
* `Frontend/src/pages/DailyInsights/DailyInsights.js`:
  `toggleExpanded`, `generateNewInsight`, `monitorVideoProgress`,
  `getStatusMessage`;
* the backend multi-agent orchestration workflow, which is not part of the
  frontend sources and is modelled from the specification.

JavaScript numbers used in progress computations are modelled as rationals
(`ℚ`); the exact formulas are linear with small constants, so bounds and
monotonicity transfer. JS string truthiness (`!s`, `s || d`, `if (x)`)
is modelled explicitly.
-/

namespace Mirae

/-! ## Chatbot.js: data model -/

/-- A chat message, as created in `Chatbot.js` (`{id, type, content, files,
timestamp}`).  `Date.now()` timestamps and ids are modelled as naturals. -/
structure ChatMessage where
  id : Nat
  type : String
  content : String
  files : List Nat := []
  timestamp : Nat := 0
  deriving DecidableEq

/-- The parsed JSON payload of one SSE message, with the optional fields the
handler in `sendMessageToAPI` inspects: `status`, `response`, `error`,
`type`, `content`.  Absent fields are `none`. -/
structure SSEData where
  status : Option String := none
  response : Option String := none
  error : Option String := none
  type : Option String := none
  content : Option String := none
  deriving DecidableEq

/-- One input to the EventSource handlers: a message whose data parsed as
JSON, a message whose data failed to parse (the handler's `catch` branch
receives the raw text), or a transport error (`onerror`). -/
inductive StreamIn where
  | message (d : SSEData)
  | raw (s : String)
  | transportError
  deriving DecidableEq

/-- How the promise returned by `sendMessageToAPI` settles:
`resolve({content, success: true})`, `reject(new Error(msg))`, or
`reject(err)` with the transport error event. -/
inductive Settle where
  | resolved (content : String)
  | rejectedError (msg : String)
  | rejectedTransport
  deriving DecidableEq

/-- The state manipulated by the closure in `sendMessageToAPI`:
`fullContent`, `isComplete`, whether `eventSource.close()` has been called,
the React `messages` list, `isTyping`, and how the promise has settled
(if it has). -/
structure StreamState where
  fullContent : String
  isComplete : Bool
  closed : Bool
  messages : List ChatMessage
  isTyping : Bool
  outcome : Option Settle
  deriving DecidableEq

/-- JS truthiness of an optional string: `undefined` and `""` are falsy. -/
def truthyStr : Option String → Bool
  | none => false
  | some s => s ≠ ""

/-- JS `String.prototype.trim()`: strip leading and trailing whitespace
(modelled structurally so concrete inputs evaluate). -/
def jsTrim (s : String) : String :=
  ⟨((s.toList.dropWhile Char.isWhitespace).reverse.dropWhile
      Char.isWhitespace).reverse⟩

/-- JS promise semantics: the first `resolve`/`reject` wins; later settle
calls are ignored. -/
def settleOnce (o : Option Settle) (s : Settle) : Option Settle :=
  match o with
  | none => some s
  | some x => some x

/-- `prev.map(m => m.id === botMsgId ? { ...m, content } : m)` — the updater
passed to `setMessages` when stream content arrives. -/
def updateBotContent (botMsgId : Nat) (c : String) (ms : List ChatMessage) :
    List ChatMessage :=
  ms.map fun m => if m.id = botMsgId then { m with content := c } else m

/-- `data.error || "알 수 없는 오류가 발생했습니다."` in the error branch. -/
def errMessageOf (d : SSEData) : String :=
  match d.error with
  | none => "알 수 없는 오류가 발생했습니다."
  | some e => if e = "" then "알 수 없는 오류가 발생했습니다." else e

/-- The `eventSource.onmessage` handler body for a successfully parsed
payload, mirroring the if/else-if chain of `Chatbot.js` lines 361–388. -/
def onmessage (botMsgId : Nat) (s : StreamState) (d : SSEData) : StreamState :=
  if d.status = some "processing" then
    s
  else if d.status = some "completed" ∧ truthyStr d.response then
    let resp := d.response.getD ""
    { s with
      fullContent := resp
      messages := updateBotContent botMsgId resp s.messages
      isComplete := true
      closed := true
      isTyping := false
      outcome := settleOnce s.outcome (.resolved resp) }
  else if d.status = some "error" then
    { s with
      isComplete := true
      closed := true
      isTyping := false
      outcome := settleOnce s.outcome (.rejectedError (errMessageOf d)) }
  else if d.type = some "text_chunk" then
    -- `fullContent += data.content`; an absent field concatenates as
    -- the string "undefined" in JS
    let fc := s.fullContent ++ d.content.getD "undefined"
    { s with
      fullContent := fc
      messages := updateBotContent botMsgId fc s.messages }
  else
    s

/-- The `catch` branch of `onmessage` (JSON parse failure): if
`event.data && event.data.trim()` then the raw data is appended. -/
def onRawMessage (botMsgId : Nat) (s : StreamState) (raw : String) :
    StreamState :=
  if raw ≠ "" ∧ jsTrim raw ≠ "" then
    let fc := s.fullContent ++ raw
    { s with
      fullContent := fc
      messages := updateBotContent botMsgId fc s.messages }
  else
    s

/-- The `eventSource.onerror` handler: only acts when `!isComplete`. -/
def onerror (s : StreamState) : StreamState :=
  if s.isComplete then
    s
  else
    { s with
      closed := true
      isTyping := false
      outcome := settleOnce s.outcome .rejectedTransport }

/-- Dispatch of one stream input.  A closed `EventSource` delivers no
further events, so a closed state absorbs every input. -/
def stepStream (botMsgId : Nat) (s : StreamState) (e : StreamIn) : StreamState :=
  if s.closed then s
  else
    match e with
    | .message d => onmessage botMsgId s d
    | .raw r => onRawMessage botMsgId s r
    | .transportError => onerror s

/-- The state `sendMessageToAPI` sets up before any stream event arrives:
the placeholder bot message (id `botMsgId`, empty content) is appended and
`isTyping` is set. -/
def initStream (prev : List ChatMessage) (botMsgId ts : Nat) : StreamState :=
  { fullContent := ""
    isComplete := false
    closed := false
    messages := prev ++ [{ id := botMsgId, type := "bot", content := "", timestamp := ts }]
    isTyping := true
    outcome := none }

/-- Processing a whole sequence of stream inputs from the initial state. -/
def runStream (prev : List ChatMessage) (botMsgId ts : Nat)
    (es : List StreamIn) : StreamState :=
  es.foldl (stepStream botMsgId) (initStream prev botMsgId ts)

/-- Spec-side view of a single input: the settlement the spec's "terminal
event" rules assign to it (status `completed` resolves with the response,
status `error` rejects, a transport error rejects), `none` otherwise. -/
def claimTerminal (e : StreamIn) : Option Settle :=
  match e with
  | .message d =>
    if d.status = some "completed" then some (.resolved (d.response.getD ""))
    else if d.status = some "error" then some (.rejectedError (errMessageOf d))
    else none
  | .raw _ => none
  | .transportError => some .rejectedTransport

/-- Well-formedness of a stream per the interface spec: every event with
`status: completed` carries the result (a non-empty `response`). -/
def WFStream (es : List StreamIn) : Prop :=
  ∀ d : SSEData, StreamIn.message d ∈ es → d.status = some "completed" →
    truthyStr d.response = true

/-! ## Chatbot.js: message-list operations and `handleSendMessage` -/

/-- `prev => [...prev, m]` — the appending updater used for the user
message, the placeholder bot message and the error message. -/
def appendMessage (m : ChatMessage) (ms : List ChatMessage) : List ChatMessage :=
  ms ++ [m]

/-- `handleProfileSetupComplete`'s `setMessages` updater: it ignores the
previous list and installs a single personalized welcome message. -/
def handleProfileSetupComplete (userName : String) (ts : Nat)
    (_prev : List ChatMessage) : List ChatMessage :=
  [{ id := 1
     type := "bot"
     content := "안녕하세요 " ++ userName ++
       "님! 저는 AI 금융 어시스턴트입니다. 귀하의 투자 프로필을 바탕으로 개인화된 투자 조언과 시장 분석을 제공해드릴 수 있습니다. 오늘 어떻게 도와드릴까요?"
     timestamp := ts }]

/-- The claim's frame condition on one `setMessages` updater: it either
appends (the previous list is kept as an initial segment) or rewrites the
content of the in-flight bot message in place. -/
def preservesHistory (f : List ChatMessage → List ChatMessage) : Prop :=
  ∀ ms, (∃ suffix, f ms = ms ++ suffix) ∨
    ∃ i c, f ms = updateBotContent i c ms

/-- The component state touched by `handleSendMessage` before any stream
event arrives. -/
structure ChatComponentState where
  messages : List ChatMessage
  inputMessage : String
  uploadedFiles : List Nat
  isTyping : Bool
  deriving DecidableEq

/-- The synchronous part of `handleSendMessage`: the guard
`if (!inputMessage.trim() && uploadedFiles.length === 0) return;`, then the
user-message append, the input/file clears, and the placeholder bot message
plus `isTyping` flip done at the start of `sendMessageToAPI`.  The boolean
records whether an `EventSource` (network request) was opened. -/
def handleSendMessage (st : ChatComponentState) (now ts : Nat) :
    ChatComponentState × Bool :=
  if jsTrim st.inputMessage = "" ∧ st.uploadedFiles = [] then
    (st, false)
  else
    let userMessage : ChatMessage :=
      { id := now
        type := "user"
        content := st.inputMessage
        files := st.uploadedFiles
        timestamp := ts }
    let st1 :=
      { st with
        messages := appendMessage userMessage st.messages
        inputMessage := ""
        uploadedFiles := [] }
    let st2 :=
      { st1 with
        messages := appendMessage
          { id := now + 1, type := "bot", content := "", timestamp := ts }
          st1.messages
        isTyping := true }
    (st2, true)

/-! ## DailyInsights.js: data model -/

/-- One insight card, as constructed in `DailyInsights.js` (mock entries and
`generateNewInsight`'s `newInsight`).  `videoFailed` is absent (falsy)
until a failure marks it. -/
structure Insight where
  id : String
  date : String
  headline : String
  summary : String
  fullContent : String
  scriptLength : Nat
  readingTime : String
  analysisMethod : String
  modelUsed : String
  videoUrl : Option String
  videoThumbnail : String
  tags : List String
  isGenerating : Bool := false
  videoFailed : Bool := false
  deriving DecidableEq

/-- One `setProgress` payload: `{status, progress, message}` with the
progress percentage as a rational. -/
structure Progress where
  status : String
  progress : ℚ
  message : String
  deriving DecidableEq

/-- `expandedStates` is a JS object keyed by insight id; a key may be
absent (`none`). -/
def ExpandedStates : Type := String → Option Bool

/-- JS truthiness of an optional boolean (`prev[insightId]`):
`undefined` is falsy. -/
def truthyBool : Option Bool → Bool
  | none => false
  | some b => b

/-- `toggleExpanded`'s updater:
`prev => ({ ...prev, [insightId]: !prev[insightId] })`. -/
def toggleExpanded (insightId : String) (prev : ExpandedStates) :
    ExpandedStates :=
  fun k => if k = insightId then some (!truthyBool (prev insightId)) else prev k

/-! ## DailyInsights.js: `monitorVideoProgress` -/

/-- `const maxAttempts = 1200` in `monitorVideoProgress`. -/
def maxAttempts : Nat := 1200

/-- The response one `checkStatus` attempt observes from
`/api/insights/video-status/`: the fetch threw, the response was not ok,
or a JSON body `{status, video_url}`. -/
inductive StatusCheck where
  | netError (msg : String)
  | httpError
  | ok (status : String) (videoUrl : Option String)
  deriving DecidableEq

/-- `Math.min(90, 30 + (attempts / maxAttempts) * 60)`. -/
def progressPercent (attempts : Nat) : ℚ :=
  min 90 (30 + ((attempts : ℚ) / (maxAttempts : ℚ)) * 60)

/-- `getStatusMessage(status, attempts, maxAttempts)`;
`Math.max(1, Math.ceil((maxAttempts - attempts) / 12))` on naturals. -/
def getStatusMessage (status : String) (attempts mx : Nat) : String :=
  if status = "processing" then
    let remaining := max 1 ((mx - attempts + 11) / 12)
    "영상 처리 중... 약 " ++ toString remaining ++ "분 남음"
  else if status = "waiting" then "대기 중..."
  else if status = "pending" then "처리 대기 중..."
  else if status = "completed" then "영상 생성 완료!"
  else if status = "failed" then "영상 생성 실패"
  else "상태 확인 중..."

/-- `insight.id === insightId ? { ...insight, isGenerating: false,
videoFailed: true } : insight` — the failure-marking updater. -/
def markVideoFailed (insightId : String) (ins : List Insight) : List Insight :=
  ins.map fun i =>
    if i.id = insightId then { i with isGenerating := false, videoFailed := true }
    else i

/-- `{ ...insight, videoUrl: data.video_url, isGenerating: false }` on
completion. -/
def setVideoUrl (insightId : String) (url : Option String)
    (ins : List Insight) : List Insight :=
  ins.map fun i =>
    if i.id = insightId then { i with videoUrl := url, isGenerating := false }
    else i

/-- How the promise of `monitorVideoProgress` settles. -/
inductive MonitorOutcome where
  | resolved
  | rejected (msg : String)
  deriving DecidableEq

/-- The observable effects of one `monitorVideoProgress` run: the final
insights list, the ordered `setProgress` calls, the responses of the status
checks actually performed (in order), and the settlement. -/
structure MonitorRun where
  insights : List Insight
  trace : List Progress
  observed : List StatusCheck
  outcome : MonitorOutcome
  deriving DecidableEq

/-- The body of `checkStatus` in `monitorVideoProgress`, unrolled over the
environment `env` giving the response of the `k`-th status check
(1-based).  `attempts` is the counter before the `attempts++` of the
current call; `fuel` bounds the recursion and satisfies
`maxAttempts ≤ fuel + attempts` on every reachable call, which makes the
`fuel = 0` branch unreachable (`checkStatus_fuel_irrelevant`-style lemmas
below only ever use it under that invariant). -/
def checkStatus (env : Nat → StatusCheck) (insightId : String) :
    Nat → Nat → List Insight → MonitorRun
  | 0, _, insights =>
    { insights := insights, trace := [], observed := []
      outcome := .rejected "시간 초과" }
  | fuel + 1, attempts, insights =>
    let a := attempts + 1
    match env a with
    | .netError msg =>
      -- the fetch threw; the catch emits a failed progress and rejects
      { insights := insights
        trace := [⟨"failed", 0, msg⟩]
        observed := [.netError msg]
        outcome := .rejected msg }
    | .httpError =>
      -- `throw new Error('상태 확인 실패')`
      { insights := insights
        trace := [⟨"failed", 0, "상태 확인 실패"⟩]
        observed := [.httpError]
        outcome := .rejected "상태 확인 실패" }
    | .ok status videoUrl =>
      let p : Progress :=
        ⟨status, progressPercent a, getStatusMessage status a maxAttempts⟩
      if status = "completed" then
        { insights := setVideoUrl insightId videoUrl insights
          trace := [p, ⟨"completed", 100, "영상 생성 완료!"⟩]
          observed := [.ok status videoUrl]
          outcome := .resolved }
      else if status = "failed" then
        -- `throw new Error('영상 생성 실패')`, caught below
        { insights := markVideoFailed insightId insights
          trace := [p, ⟨"failed", 0, "영상 생성 실패"⟩]
          observed := [.ok status videoUrl]
          outcome := .rejected "영상 생성 실패" }
      else if maxAttempts ≤ a then
        -- `attempts >= maxAttempts`: `throw new Error('시간 초과')`
        { insights := markVideoFailed insightId insights
          trace := [p, ⟨"failed", 0, "시간 초과"⟩]
          observed := [.ok status videoUrl]
          outcome := .rejected "시간 초과" }
      else
        let rest := checkStatus env insightId fuel a insights
        { insights := rest.insights
          trace := p :: rest.trace
          observed := .ok status videoUrl :: rest.observed
          outcome := rest.outcome }

/-- `monitorVideoProgress(videoId, insightId)`: the first `checkStatus()`
call starts with `attempts = 0`. -/
def monitorVideoProgress (env : Nat → StatusCheck) (insightId : String)
    (insights : List Insight) : MonitorRun :=
  checkStatus env insightId maxAttempts 0 insights

/-! ## DailyInsights.js: `generateNewInsight` -/

/-- `result.script_info` of the generation response. -/
structure ScriptInfo where
  script : String
  script_length : Nat
  estimated_reading_time : String
  deriving DecidableEq

/-- `result.insight_data` of the generation response. -/
structure InsightData where
  analysis_method : String
  model_used : String
  deriving DecidableEq

/-- `result.video_info` of the generation response. -/
structure VideoInfo where
  video_id : String
  deriving DecidableEq

/-- The parsed JSON of a successful generation response. -/
structure GenerateResult where
  script_info : ScriptInfo
  insight_data : InsightData
  video_info : VideoInfo
  deriving DecidableEq

/-- The outcome of the `POST /api/insights/generate-video/...` request:
the fetch threw, the response was not ok (`response.status` and body
text), or it succeeded with a parsed result. -/
inductive GenResponse where
  | fetchFailed (msg : String)
  | notOk (statusCode : Nat) (body : String)
  | ok (result : GenerateResult)
  deriving DecidableEq

/-- The `error.message` produced by a failed generation request:
`fetch` rethrows its own message, a non-ok response throws
"API 요청 실패: status - body".  (Empty for `ok`, unused there.) -/
def genFailureText : GenResponse → String
  | .fetchFailed msg => msg
  | .notOk code body => "API 요청 실패: " ++ toString code ++ " - " ++ body
  | .ok _ => ""

/-- Whether the generation request failed before a result was received. -/
def GenResponse.isFailure : GenResponse → Bool
  | .fetchFailed _ => true
  | .notOk _ _ => true
  | .ok _ => false

/-- The page state touched by `generateNewInsight`. -/
structure PageState where
  insights : List Insight
  isGenerating : Bool
  progress : Progress
  error : Option String
  deriving DecidableEq

/-- A whole `generateNewInsight` run: final page state plus the ordered
list of every `setProgress` call it (and the monitor it awaits) made. -/
structure GenRun where
  state : PageState
  trace : List Progress
  deriving DecidableEq

/-- The `newInsight` object built from a successful generation result.
`summary` is `script.substring(0, 200) + '...'`. -/
def newInsightOf (result : GenerateResult) (now : Nat) (today : String) :
    Insight :=
  { id := "insight_" ++ toString now
    date := today
    headline := "실시간 AI 생성 투자 인사이트"
    summary := (result.script_info.script.take 200) ++ "..."
    fullContent := result.script_info.script
    scriptLength := result.script_info.script_length
    readingTime := result.script_info.estimated_reading_time
    analysisMethod := result.insight_data.analysis_method
    modelUsed := result.insight_data.model_used
    videoUrl := none
    videoThumbnail :=
      "https://via.placeholder.com/600x300/9c27b0/ffffff?text=실시간+AI+인사이트"
    tags := ["실시간", "AI 생성", "개인화"]
    isGenerating := true
    videoFailed := false }

/-- `generateNewInsight`, with the generation response and the status-check
environment as inputs.  `now` stands for `Date.now()` and `today` for the
ISO date prefix. -/
def generateNewInsight (genv : GenResponse) (menv : Nat → StatusCheck)
    (now : Nat) (today : String) (st : PageState) : GenRun :=
  let p0 : Progress := ⟨"starting", 10, "새로운 인사이트 생성 중..."⟩
  let st0 := { st with isGenerating := true, error := none, progress := p0 }
  match genv with
  | .fetchFailed msg =>
    let pf : Progress := ⟨"failed", 0, "생성 실패"⟩
    { state :=
        { st0 with
          error := some ("새 인사이트 생성 실패: " ++ msg)
          progress := pf
          isGenerating := false }
      trace := [p0, pf] }
  | .notOk code body =>
    let msg := "API 요청 실패: " ++ toString code ++ " - " ++ body
    let pf : Progress := ⟨"failed", 0, "생성 실패"⟩
    { state :=
        { st0 with
          error := some ("새 인사이트 생성 실패: " ++ msg)
          progress := pf
          isGenerating := false }
      trace := [p0, pf] }
  | .ok result =>
    let newInsight := newInsightOf result now today
    let insights1 := newInsight :: st.insights
    let p1 : Progress := ⟨"processing", 30, "영상 생성 중... 약 2-3분 소요 예상"⟩
    let mr := monitorVideoProgress menv newInsight.id insights1
    match mr.outcome with
    | .resolved =>
      { state :=
          { st0 with
            insights := mr.insights
            progress := ⟨"completed", 100, "영상 생성 완료!"⟩
            isGenerating := false }
        trace := p0 :: p1 :: mr.trace }
    | .rejected msg =>
      let pf : Progress := ⟨"failed", 0, "생성 실패"⟩
      { state :=
          { st0 with
            insights := mr.insights
            error := some ("새 인사이트 생성 실패: " ++ msg)
            progress := pf
            isGenerating := false }
        trace := (p0 :: p1 :: mr.trace) ++ [pf] }

/-! ## Orchestrator workflow (modelled from the spec)

The backend that implements the multi-agent orchestration workflow is not
among the repository's source files (only the frontend, deployment files
and pipeline scripts are); the state machine below is modelled from §4.1
of the specification and the README's workflow diagram. -/

/-- Modelled from the spec: the Query Classifier's output
(`{FAST, DELIBERATIVE}`, §4.2); the backend classifier itself is missing
from the sources. -/
inductive Classification where
  | FAST
  | DELIBERATIVE
  deriving DecidableEq

/-- Modelled from the spec: the Critic's decision
(`CONTINUE | SUFFICIENT | GIVE_UP`, §3); the backend Critic is missing
from the sources. -/
inductive Decision where
  | CONTINUE
  | SUFFICIENT
  | GIVE_UP
  deriving DecidableEq

/-- Modelled from the spec: a `CriticVerdict`
(`{decision, missing_aspects, confidence}`, §3). -/
structure CriticVerdict where
  decision : Decision
  missing_aspects : List String
  confidence : ℚ
  deriving DecidableEq

/-- Modelled from the spec: the source kind of an evidence item
(`VECTOR | GRAPH`, §3). -/
inductive SourceKind where
  | VECTOR
  | GRAPH
  deriving DecidableEq

/-- Modelled from the spec: an `Evidence` item (§3). -/
structure Evidence where
  source_kind : SourceKind
  content : String
  relevance_score : ℚ
  origin_id : String
  deriving DecidableEq

/-- Modelled from the spec: the terminal `WorkflowResult` (§3), restricted
to the fields the claims mention. -/
structure WorkflowResult where
  report_text : String
  confidence : ℚ
  iterations_used : Nat
  deriving DecidableEq

/-- Modelled from the spec: the external capabilities the orchestrator
sequences (classifier, planning agent, knowledge retriever, critic, report
generator), as swappable stubs per §9.  The critic receives the original
query, the current sub-question list and the whole evidence pool. -/
structure AgentStubs where
  classify : String → Classification
  plan : String → List String
  retrieve : String → List Evidence
  critic : String → List String → List Evidence → CriticVerdict
  report : String → List Evidence → Option CriticVerdict → String

/-- Modelled from the spec: `MAX_ITERATIONS` (bounded, e.g. `3`, §3). -/
def MAX_ITERATIONS : Nat := 3

/-- Observable counters of one workflow run: the result and how many times
each agent was invoked, for the spec's call-count assertions (§8). -/
structure RunStats where
  result : WorkflowResult
  plannerCalls : Nat
  retrieverCalls : Nat
  criticCalls : Nat
  evidencePool : List Evidence
  deriving DecidableEq

/-- Modelled from the spec: the RETRIEVING → CRITIQUING → (RETRIEVING |
REPORTING) loop of §4.1.  Each round retrieves evidence for every current
sub-question, appends it to the pool, asks the Critic, and loops back iff
`decision = CONTINUE ∧ iterations_used < MAX_ITERATIONS`; on looping the
Critic's `missing_aspects` replace the sub-question list.  `fuel` only
bounds the recursion; every call from `runWorkflow` keeps
`MAX_ITERATIONS ≤ fuel + iters`, which makes the `fuel = 0` branch
unreachable. -/
def critLoop (ag : AgentStubs) (query : String) :
    Nat → Nat → List String → List Evidence → Nat → Nat → RunStats
  | 0, iters, _, pool, rCalls, cCalls =>
    { result :=
        { report_text := ag.report query pool none
          confidence := 0
          iterations_used := iters }
      plannerCalls := 0
      retrieverCalls := rCalls
      criticCalls := cCalls
      evidencePool := pool }
  | fuel + 1, iters, subqs, pool, rCalls, cCalls =>
    let newEvidence := (subqs.map ag.retrieve).flatten
    let pool1 := pool ++ newEvidence
    let verdict := ag.critic query subqs pool1
    let iters1 := iters + 1
    let rCalls1 := rCalls + subqs.length
    let cCalls1 := cCalls + 1
    if verdict.decision = Decision.CONTINUE ∧ iters1 < MAX_ITERATIONS then
      critLoop ag query fuel iters1
        [String.intercalate " " verdict.missing_aspects] pool1 rCalls1 cCalls1
    else
      { result :=
          { report_text := ag.report query pool1 (some verdict)
            confidence := verdict.confidence
            iterations_used := iters1 }
        plannerCalls := 0
        retrieverCalls := rCalls1
        criticCalls := cCalls1
        evidencePool := pool1 }

/-- Modelled from the spec: one workflow run (§4.1).  A `FAST`
classification goes directly from classification to report generation,
skipping Planning/Retrieval/Critic; a `DELIBERATIVE` one invokes the
Planning Agent once (falling back to the raw query on an empty plan) and
enters the bounded retrieval/critique loop. -/
def runWorkflow (ag : AgentStubs) (query : String) : RunStats :=
  match ag.classify query with
  | .FAST =>
    { result :=
        { report_text := ag.report query [] none
          confidence := 1
          iterations_used := 0 }
      plannerCalls := 0
      retrieverCalls := 0
      criticCalls := 0
      evidencePool := [] }
  | .DELIBERATIVE =>
    let plan := ag.plan query
    let subqs := if plan = [] then [query] else plan
    let stats := critLoop ag query MAX_ITERATIONS 0 subqs [] 0 0
    { stats with plannerCalls := 1 }

/-! ## Stream lemmas (Chatbot.js, `sendMessageToAPI`) -/

theorem stepStream_of_closed (b : Nat) (s : StreamState) (e : StreamIn)
    (h : s.closed = true) : stepStream b s e = s := by
  simp [stepStream, h]

theorem foldl_stepStream_of_closed (b : Nat) (es : List StreamIn)
    (s : StreamState) (h : s.closed = true) : es.foldl (stepStream b) s = s := by
  induction es with
  | nil => rfl
  | cons e es ih => simp [List.foldl_cons, stepStream_of_closed b s e h, ih]

theorem stepStream_nonterminal (b : Nat) (s : StreamState) (e : StreamIn)
    (h0 : s.closed = false) (h1 : s.isComplete = false) (h2 : s.outcome = none)
    (hn : claimTerminal e = none) :
    (stepStream b s e).closed = false ∧ (stepStream b s e).isComplete = false ∧
      (stepStream b s e).outcome = none := by
  cases e with
  | message d =>
    have hc : ¬ d.status = some "completed" := by
      intro h; simp [claimTerminal, h] at hn
    have he : ¬ d.status = some "error" := by
      intro h; simp [claimTerminal, h] at hn
    by_cases hp : d.status = some "processing"
    · simp [stepStream, h0, onmessage, hp, h1, h2]
    · by_cases ht : d.type = some "text_chunk" <;>
        simp [stepStream, h0, onmessage, hp, hc, he, ht, h1, h2]
  | raw r =>
    by_cases hr : r ≠ "" ∧ jsTrim r ≠ "" <;>
      simp [stepStream, h0, onRawMessage, hr, h1, h2]
  | transportError => simp [claimTerminal] at hn

theorem stepStream_terminal (b : Nat) (s : StreamState) (e : StreamIn)
    (t : Settle)
    (h0 : s.closed = false) (h1 : s.isComplete = false) (h2 : s.outcome = none)
    (ht : claimTerminal e = some t)
    (hwf : ∀ d, e = StreamIn.message d → d.status = some "completed" →
      truthyStr d.response = true) :
    (stepStream b s e).closed = true ∧ (stepStream b s e).outcome = some t := by
  cases e with
  | message d =>
    by_cases hc : d.status = some "completed"
    · have htr : truthyStr d.response = true := hwf d rfl hc
      have hp : ¬ d.status = some "processing" := by simp [hc]
      have ht' : t = Settle.resolved (d.response.getD "") := by
        simp [claimTerminal, hc] at ht; exact ht.symm
      subst ht'
      simp [stepStream, h0, onmessage, hp, hc, htr, h2, settleOnce]
    · by_cases he : d.status = some "error"
      · have hp : ¬ d.status = some "processing" := by simp [he]
        have ht' : t = Settle.rejectedError (errMessageOf d) := by
          simp [claimTerminal, hc, he] at ht; exact ht.symm
        subst ht'
        simp [stepStream, h0, onmessage, hp, hc, he, h2, settleOnce]
      · simp [claimTerminal, hc, he] at ht
  | raw r => simp [claimTerminal] at ht
  | transportError =>
    have ht' : t = Settle.rejectedTransport := by
      simp [claimTerminal] at ht; exact ht.symm
    subst ht'
    simp [stepStream, h0, onerror, h1, h2, settleOnce]

theorem runStream_foldl_spec (b : Nat) :
    ∀ (es : List StreamIn) (s : StreamState),
      s.closed = false → s.isComplete = false → s.outcome = none →
      (∀ d, StreamIn.message d ∈ es → d.status = some "completed" →
        truthyStr d.response = true) →
      (es.foldl (stepStream b) s).outcome = es.findSome? claimTerminal ∧
        (es.foldl (stepStream b) s).closed = (es.findSome? claimTerminal).isSome := by
  intro es
  induction es with
  | nil => intro s h0 h1 h2 _; simpa [List.findSome?] using ⟨h2, h0⟩
  | cons e es ih =>
    intro s h0 h1 h2 hwf
    cases hterm : claimTerminal e with
    | none =>
      obtain ⟨g0, g1, g2⟩ := stepStream_nonterminal b s e h0 h1 h2 hterm
      have hrec := ih (stepStream b s e) g0 g1 g2
        (fun d hd => hwf d (List.mem_cons_of_mem _ hd))
      simpa [List.foldl_cons, List.findSome?_cons, hterm] using hrec
    | some t =>
      have hwfe : ∀ d, e = StreamIn.message d → d.status = some "completed" →
          truthyStr d.response = true :=
        fun d hd => hwf d (by rw [← hd]; exact List.mem_cons_self _ _)
      obtain ⟨g0, g1⟩ := stepStream_terminal b s e t h0 h1 h2 hterm hwfe
      simp [List.foldl_cons, foldl_stepStream_of_closed b es _ g0,
        List.findSome?_cons, hterm, g0, g1]

theorem stepStream_preserves_inv (b : Nat) (e : StreamIn) (s : StreamState)
    (h : s.closed = false → s.isComplete = false ∧ s.outcome = none) :
    (stepStream b s e).closed = false →
      (stepStream b s e).isComplete = false ∧ (stepStream b s e).outcome = none := by
  by_cases hc : s.closed
  · intro hfalse
    rw [stepStream_of_closed b s e hc] at hfalse
    rw [hc] at hfalse
    simp at hfalse
  · have hc' : s.closed = false := by simpa using hc
    obtain ⟨h1, h2⟩ := h hc'
    cases e with
    | message d =>
      simp only [stepStream, hc', Bool.false_eq_true, if_false]
      unfold onmessage
      split_ifs <;> simp_all
    | raw r =>
      simp only [stepStream, hc', Bool.false_eq_true, if_false]
      unfold onRawMessage
      split_ifs <;> simp_all
    | transportError =>
      simp only [stepStream, hc', Bool.false_eq_true, if_false]
      unfold onerror
      split_ifs <;> simp_all

theorem runStream_inv (prev : List ChatMessage) (b ts : Nat)
    (es : List StreamIn) :
    (runStream prev b ts es).closed = false →
      (runStream prev b ts es).isComplete = false ∧
      (runStream prev b ts es).outcome = none := by
  have H : ∀ (l : List StreamIn) (s : StreamState),
      (s.closed = false → s.isComplete = false ∧ s.outcome = none) →
      ((l.foldl (stepStream b) s).closed = false →
        (l.foldl (stepStream b) s).isComplete = false ∧
        (l.foldl (stepStream b) s).outcome = none) := by
    intro l
    induction l with
    | nil => intro s h; exact h
    | cons e l ih => intro s h; exact ih _ (stepStream_preserves_inv b e s h)
  exact H es _ (fun _ => ⟨rfl, rfl⟩)

theorem updateBotContent_mem (b : Nat) (c : String) (ms : List ChatMessage) :
    ∀ m ∈ updateBotContent b c ms, m.id = b → m.content = c := by
  intro m hm hid
  simp only [updateBotContent, List.mem_map] at hm
  obtain ⟨x, _, hx⟩ := hm
  by_cases h : x.id = b
  · rw [← hx]; simp [h]
  · rw [← hx] at hid; simp [h] at hid

/-- C1: For every chat stream run started by `sendMessageToAPI`, at most one
terminal event is processed and the promise settles exactly once: under the
interface guarantee that `completed` events carry the response, the
settlement equals the one assigned to the first terminal input (completed
resolves, error rejects, a transport error before completion rejects), the
stream is closed exactly when a terminal input occurred, and once closed no
later input changes the state (outcome and message list included). -/
theorem C1_stream_single_terminal (prev : List ChatMessage) (b ts : Nat)
    (es extra : List StreamIn) (hwf : WFStream es) :
    (runStream prev b ts es).outcome = es.findSome? claimTerminal ∧
    (runStream prev b ts es).closed = (es.findSome? claimTerminal).isSome ∧
    ((runStream prev b ts es).closed = true →
      runStream prev b ts (es ++ extra) = runStream prev b ts es) := by
  have h := runStream_foldl_spec b es (initStream prev b ts) rfl rfl rfl hwf
  refine ⟨h.1, h.2, fun hcl => ?_⟩
  unfold runStream at hcl ⊢
  rw [List.foldl_append]
  exact foldl_stepStream_of_closed b extra _ hcl

/-- Witness for C1 at a concrete stream: a single completed event resolves
with its response, and a transport error arriving afterwards changes
nothing. -/
theorem C1_witness :
    (runStream [] 2 0
        [StreamIn.message ⟨some "completed", some "done", none, none, none⟩]).outcome
      = some (Settle.resolved "done") ∧
    runStream [] 2 0
        ([StreamIn.message ⟨some "completed", some "done", none, none, none⟩]
          ++ [StreamIn.transportError])
      = runStream [] 2 0
        [StreamIn.message ⟨some "completed", some "done", none, none, none⟩] := by
  have h := C1_stream_single_terminal [] 2 0
    [StreamIn.message ⟨some "completed", some "done", none, none, none⟩]
    [StreamIn.transportError]
    (by
      intro d hd _
      simp only [List.mem_singleton, StreamIn.message.injEq] at hd
      subst hd
      decide)
  refine ⟨?_, h.2.2 ?_⟩
  · rw [h.1]; decide
  · rw [h.2.1]; decide

/-- C3: every stream event with status `completed` that carries the result
(a non-empty `response`) is terminal: arriving on a still-open stream, it
sets the in-flight bot message's content to the response text, closes the
stream, stops the typing indicator, and resolves the promise with that
content. -/
theorem C3_completed_event_terminal (prev : List ChatMessage) (b ts : Nat)
    (es : List StreamIn) (d : SSEData) (r : String)
    (hopen : (runStream prev b ts es).closed = false)
    (hst : d.status = some "completed") (hresp : d.response = some r)
    (hr : r ≠ "") :
    (runStream prev b ts (es ++ [StreamIn.message d])).closed = true ∧
    (runStream prev b ts (es ++ [StreamIn.message d])).isComplete = true ∧
    (runStream prev b ts (es ++ [StreamIn.message d])).isTyping = false ∧
    (runStream prev b ts (es ++ [StreamIn.message d])).outcome
      = some (Settle.resolved r) ∧
    (runStream prev b ts (es ++ [StreamIn.message d])).messages
      = updateBotContent b r (runStream prev b ts es).messages ∧
    (runStream prev b ts (es ++ [StreamIn.message d])).fullContent = r ∧
    (∀ m ∈ (runStream prev b ts (es ++ [StreamIn.message d])).messages,
      m.id = b → m.content = r) := by
  obtain ⟨h1, h2⟩ := runStream_inv prev b ts es hopen
  have hstep : runStream prev b ts (es ++ [StreamIn.message d])
      = stepStream b (runStream prev b ts es) (StreamIn.message d) := by
    unfold runStream
    rw [List.foldl_append]
    rfl
  have hp : ¬ d.status = some "processing" := by simp [hst]
  have htr : truthyStr d.response = true := by
    rw [hresp]; simpa [truthyStr] using hr
  have hgetD : d.response.getD "" = r := by rw [hresp]; rfl
  rw [hstep]
  simp only [stepStream, hopen, Bool.false_eq_true, if_false, onmessage,
    hp, hst, htr, and_true, if_true, hgetD, h2, settleOnce]
  refine ⟨by simp [hp], by simp [hp], by simp [hp], by simp [hp],
    by simp [hp], by simp [hp], ?_⟩
  · intro m hm hid
    exact updateBotContent_mem b r _ m (by simpa [hp] using hm) hid

/-- Witness for C3 at a concrete event. -/
theorem C3_witness :
    (runStream [] 2 0
        [StreamIn.message ⟨some "completed", some "ok", none, none, none⟩]).outcome
      = some (Settle.resolved "ok") ∧
    (runStream [] 2 0
        [StreamIn.message ⟨some "completed", some "ok", none, none, none⟩]).closed
      = true := by
  have h := C3_completed_event_terminal [] 2 0 []
    ⟨some "completed", some "ok", none, none, none⟩ "ok" (by decide) rfl rfl
    (by decide)
  exact ⟨h.2.2.2.1, h.1⟩

/-! ## Message-list operations (C7) -/

/-- C7 counterexample: `handleProfileSetupComplete`'s updater neither
appends to a concrete two-message history nor updates a bot message's
content in place — it drops the recorded user message entirely, so the
"never removed" claim fails on it. -/
theorem C7_counterexample :
    ¬ preservesHistory (handleProfileSetupComplete "김철수" 5) := by
  intro h
  rcases h [⟨1, "bot", "환영", [], 0⟩, ⟨2, "user", "질문", [], 1⟩] with
    ⟨suffix, hs⟩ | ⟨i, c, hu⟩
  · have := congrArg List.length hs
    simp [handleProfileSetupComplete] at this
  · have := congrArg List.length hu
    simp [handleProfileSetupComplete, updateBotContent] at this

/-- C7 (amended): every `setMessages` updater of the chatbot component
except `handleProfileSetupComplete` preserves history — the appends (user
message, placeholder bot message, error message) keep the previous list as
an initial segment, and the stream-content updater only rewrites the
in-flight bot message's content in place; `handleProfileSetupComplete`
instead replaces the whole list by a single fresh welcome message,
discarding whatever was recorded before. -/
theorem C7_append_only_amended :
    (∀ m, preservesHistory (appendMessage m)) ∧
    (∀ i c, preservesHistory (updateBotContent i c)) ∧
    (∀ userName ts prev, (handleProfileSetupComplete userName ts prev).length = 1 ∧
      handleProfileSetupComplete userName ts prev
        = handleProfileSetupComplete userName ts []) := by
  refine ⟨fun m ms => Or.inl ⟨[m], rfl⟩, fun i c ms => Or.inr ⟨i, c, rfl⟩,
    fun userName ts prev => ⟨rfl, rfl⟩⟩

/-! ## `toggleExpanded` (C9) -/

/-- C9: `toggleExpanded` is a per-key involution with a frame condition:
one application changes only the toggled id's entry, setting it to the
negation of its current truthy value (absent read as `false`); applying it
twice restores the original boolean expansion value of that id while every
other id's entry is unchanged throughout. -/
theorem C9_toggleExpanded_involution (insightId : String)
    (prev : ExpandedStates) :
    (∀ k, k ≠ insightId → toggleExpanded insightId prev k = prev k) ∧
    toggleExpanded insightId prev insightId
      = some (!truthyBool (prev insightId)) ∧
    (∀ k, k ≠ insightId →
      toggleExpanded insightId (toggleExpanded insightId prev) k = prev k) ∧
    truthyBool (toggleExpanded insightId (toggleExpanded insightId prev) insightId)
      = truthyBool (prev insightId) := by
  refine ⟨fun k hk => by simp [toggleExpanded, hk], by simp [toggleExpanded],
    fun k hk => by simp [toggleExpanded, hk], ?_⟩
  simp [toggleExpanded, truthyBool]

/-- Witness for C9 at a concrete map (all entries absent). -/
theorem C9_witness :
    toggleExpanded "insight_1" (fun _ => none) "insight_1" = some true ∧
    truthyBool (toggleExpanded "insight_1"
        (toggleExpanded "insight_1" (fun _ => none)) "insight_1")
      = truthyBool ((fun _ => (none : Option Bool)) "insight_1") ∧
    toggleExpanded "insight_1" (fun _ => none) "mock_2" = none := by
  have h := C9_toggleExpanded_involution "insight_1" (fun _ => none)
  refine ⟨?_, h.2.2.2, ?_⟩
  · rw [h.2.1]; rfl
  · rw [h.1 "mock_2" (by decide)]

/-! ## `handleSendMessage` guard (C10) -/

/-- C10: sending with empty input is a no-op at the public chat interface:
if the input message trims to the empty string and no files are uploaded,
`handleSendMessage` returns with the component state unchanged (messages,
input, files and typing indicator included) and opens no stream. -/
theorem C10_empty_input_noop (st : ChatComponentState) (now ts : Nat)
    (h1 : jsTrim st.inputMessage = "") (h2 : st.uploadedFiles = []) :
    handleSendMessage st now ts = (st, false) := by
  simp [handleSendMessage, h1, h2]

/-- Witness for C10 at a whitespace-only input. -/
theorem C10_witness :
    jsTrim "   " = "" ∧
    handleSendMessage ⟨[], "   ", [], false⟩ 7 8 = (⟨[], "   ", [], false⟩, false) :=
  ⟨by decide, C10_empty_input_noop ⟨[], "   ", [], false⟩ 7 8 (by decide) rfl⟩

/-! ## Orchestrator lemmas (C2, C8) -/

theorem critLoop_iterations_le (ag : AgentStubs) (query : String) :
    ∀ (fuel iters : Nat) (subqs : List String) (pool : List Evidence)
      (rCalls cCalls : Nat),
      (critLoop ag query fuel iters subqs pool rCalls cCalls).result.iterations_used
          ≤ iters + fuel ∧
      (iters < MAX_ITERATIONS →
        (critLoop ag query fuel iters subqs pool rCalls cCalls).result.iterations_used
          ≤ MAX_ITERATIONS) := by
  intro fuel
  induction fuel with
  | zero =>
    intro iters subqs pool rCalls cCalls
    exact ⟨Nat.le_add_right _ _, fun h => Nat.le_of_lt h⟩
  | succ fuel ih =>
    intro iters subqs pool rCalls cCalls
    simp only [critLoop]
    split_ifs with h
    · exact ⟨le_trans (ih _ _ _ _ _).1 (by omega),
        fun _ => (ih _ _ _ _ _).2 h.2⟩
    · exact ⟨show iters + 1 ≤ iters + (fuel + 1) by omega,
        fun hlt => Nat.succ_le_of_lt hlt⟩

theorem critLoop_always_continue (ag : AgentStubs) (query : String)
    (hc : ∀ q s p, (ag.critic q s p).decision = Decision.CONTINUE) :
    ∀ (fuel iters : Nat) (subqs : List String) (pool : List Evidence)
      (rCalls cCalls : Nat),
      iters + fuel = MAX_ITERATIONS → 0 < fuel →
      (critLoop ag query fuel iters subqs pool rCalls cCalls).result.iterations_used
        = MAX_ITERATIONS := by
  intro fuel
  induction fuel with
  | zero => intro iters subqs pool rCalls cCalls _ h; omega
  | succ fuel ih =>
    intro iters subqs pool rCalls cCalls hsum _
    simp only [critLoop]
    split_ifs with h
    · exact ih (iters + 1) _ _ _ _ (by omega) (by
        rcases Nat.eq_zero_or_pos fuel with h0 | h0
        · subst h0; omega
        · exact h0)
    · have h' : ¬ iters + 1 < MAX_ITERATIONS := by
        intro hlt
        exact h ⟨hc _ _ _, hlt⟩
      show iters + 1 = MAX_ITERATIONS
      omega

/-- C2: every workflow run uses at most `MAX_ITERATIONS` (3) iterations,
and the CONTINUE loop terminates at the bound: with a Critic that returns
CONTINUE on every iteration, a deliberative run still finishes with
`iterations_used = MAX_ITERATIONS`. -/
theorem C2_iterations_bounded (ag : AgentStubs) (query : String) :
    (runWorkflow ag query).result.iterations_used ≤ MAX_ITERATIONS ∧
    ((∀ q s p, (ag.critic q s p).decision = Decision.CONTINUE) →
      ag.classify query = Classification.DELIBERATIVE →
      (runWorkflow ag query).result.iterations_used = MAX_ITERATIONS) := by
  constructor
  · unfold runWorkflow
    cases hcl : ag.classify query with
    | FAST => simp
    | DELIBERATIVE =>
      simp only []
      exact (critLoop_iterations_le ag query MAX_ITERATIONS 0
        (if ag.plan query = [] then [query] else ag.plan query) [] 0 0).2
        (by norm_num [MAX_ITERATIONS])
  · intro hc hdel
    unfold runWorkflow
    rw [hdel]
    simp only []
    exact critLoop_always_continue ag query hc MAX_ITERATIONS 0 _ _ _ _ rfl
      (by norm_num [MAX_ITERATIONS])

/-- Witness for C2: a concrete stub set whose Critic always returns
CONTINUE; the deliberative run stops at exactly 3 iterations. -/
theorem C2_witness :
    (runWorkflow
      ⟨fun _ => Classification.DELIBERATIVE, fun q => [q], fun _ => [],
        fun _ _ _ => ⟨Decision.CONTINUE, ["추가 근거"], 0⟩,
        fun _ _ _ => "보고서"⟩
      "삼성전자 투자 전망은?").result.iterations_used = MAX_ITERATIONS :=
  (C2_iterations_bounded
      ⟨fun _ => Classification.DELIBERATIVE, fun q => [q], fun _ => [],
        fun _ _ _ => ⟨Decision.CONTINUE, ["추가 근거"], 0⟩,
        fun _ _ _ => "보고서"⟩
      "삼성전자 투자 전망은?").2 (fun _ _ _ => rfl) rfl

/-- C8: for every query classified FAST, the workflow never invokes the
Planning Agent, the Knowledge Retriever, or the Critic — the run goes
directly from classification to report generation with zero iterations. -/
theorem C8_fast_path_skips_agents (ag : AgentStubs) (query : String)
    (h : ag.classify query = Classification.FAST) :
    (runWorkflow ag query).plannerCalls = 0 ∧
    (runWorkflow ag query).retrieverCalls = 0 ∧
    (runWorkflow ag query).criticCalls = 0 ∧
    (runWorkflow ag query).result.iterations_used = 0 := by
  unfold runWorkflow
  rw [h]
  simp

/-- Witness for C8 at a concrete FAST classification (a greeting). -/
theorem C8_witness :
    (runWorkflow
      ⟨fun _ => Classification.FAST, fun q => [q], fun _ => [],
        fun _ _ _ => ⟨Decision.SUFFICIENT, [], 1⟩, fun _ _ _ => "인사 응답"⟩
      "안녕하세요").retrieverCalls = 0 :=
  (C8_fast_path_skips_agents
      ⟨fun _ => Classification.FAST, fun q => [q], fun _ => [],
        fun _ _ _ => ⟨Decision.SUFFICIENT, [], 1⟩, fun _ _ _ => "인사 응답"⟩
      "안녕하세요" rfl).2.1

/-! ## `generateNewInsight` failure handling (C5) -/

/-- C5: if the generation request fails (the fetch threw, or the response
was not ok) before a result is received, the insights list is unchanged
(no entry added), the error state carries the human-readable failure
message, the run's progress ends with status `failed`, and the generating
flag is cleared — no successful-looking output remains. -/
theorem C5_generation_failure_frame (genv : GenResponse)
    (menv : Nat → StatusCheck) (now : Nat) (today : String) (st : PageState)
    (h : genv.isFailure = true) :
    (generateNewInsight genv menv now today st).state.insights = st.insights ∧
    (generateNewInsight genv menv now today st).state.error
      = some ("새 인사이트 생성 실패: " ++ genFailureText genv) ∧
    (generateNewInsight genv menv now today st).state.progress
      = ⟨"failed", 0, "생성 실패"⟩ ∧
    (generateNewInsight genv menv now today st).trace.getLast?
      = some ⟨"failed", 0, "생성 실패"⟩ ∧
    (generateNewInsight genv menv now today st).state.isGenerating = false := by
  cases genv with
  | fetchFailed msg => simp [generateNewInsight, genFailureText]
  | notOk code body => simp [generateNewInsight, genFailureText]
  | ok result => simp [GenResponse.isFailure] at h

/-- Witness for C5 at a concrete non-ok response. -/
theorem C5_witness :
    (generateNewInsight (GenResponse.notOk 500 "Internal Server Error")
        (fun _ => StatusCheck.ok "completed" none) 1 "2025-01-27"
        ⟨[], false, ⟨"", 0, ""⟩, none⟩).state.insights = [] ∧
    (generateNewInsight (GenResponse.notOk 500 "Internal Server Error")
        (fun _ => StatusCheck.ok "completed" none) 1 "2025-01-27"
        ⟨[], false, ⟨"", 0, ""⟩, none⟩).state.progress
      = ⟨"failed", 0, "생성 실패"⟩ := by
  have h := C5_generation_failure_frame (GenResponse.notOk 500 "Internal Server Error")
    (fun _ => StatusCheck.ok "completed" none) 1 "2025-01-27"
    ⟨[], false, ⟨"", 0, ""⟩, none⟩ rfl
  exact ⟨h.1, h.2.2.1⟩

/-! ## `monitorVideoProgress` lemmas (C6) -/

theorem checkStatus_observed_le (env : Nat → StatusCheck) (insightId : String) :
    ∀ (fuel attempts : Nat) (ins : List Insight),
      (checkStatus env insightId fuel attempts ins).observed.length ≤ fuel := by
  intro fuel
  induction fuel with
  | zero => intro attempts ins; simp [checkStatus]
  | succ fuel ih =>
    intro attempts ins
    simp only [checkStatus]
    cases henv : env (attempts + 1) with
    | netError msg => simp
    | httpError => simp
    | ok status url =>
      by_cases hcomp : status = "completed"
      · simp [hcomp]
      · by_cases hfail : status = "failed"
        · simp [hcomp, hfail]
        · by_cases htime : maxAttempts ≤ attempts + 1
          · simp [hcomp, hfail, htime]
          · simp only [if_neg hcomp, if_neg hfail, if_neg htime,
              List.length_cons]
            simpa using Nat.succ_le_succ (ih (attempts + 1) ins)

theorem checkStatus_resolved_iff (env : Nat → StatusCheck) (insightId : String) :
    ∀ (fuel attempts : Nat) (ins : List Insight),
      ((checkStatus env insightId fuel attempts ins).outcome = MonitorOutcome.resolved
        ↔ ∃ u, StatusCheck.ok "completed" u
            ∈ (checkStatus env insightId fuel attempts ins).observed) := by
  intro fuel
  induction fuel with
  | zero => intro attempts ins; simp [checkStatus]
  | succ fuel ih =>
    intro attempts ins
    simp only [checkStatus]
    cases henv : env (attempts + 1) with
    | netError msg => simp
    | httpError => simp
    | ok status url =>
      by_cases hcomp : status = "completed"
      · subst hcomp; simp
      · have hne : ∀ u,
            ¬ (StatusCheck.ok "completed" u = StatusCheck.ok status url) := by
          intro u hh
          injection hh with e1 _
          exact hcomp e1.symm
        by_cases hfail : status = "failed"
        · simp [if_neg hcomp, hfail, hne]
        · by_cases htime : maxAttempts ≤ attempts + 1
          · simp [if_neg hcomp, if_neg hfail, htime, hne]
          · simp only [if_neg hcomp, if_neg hfail, if_neg htime]
            simpa [List.mem_cons, hne] using ih (attempts + 1) ins

theorem checkStatus_rejected_cases (env : Nat → StatusCheck) (insightId : String) :
    ∀ (fuel attempts : Nat) (ins : List Insight) (m : String),
      fuel + attempts = maxAttempts →
      (checkStatus env insightId fuel attempts ins).outcome = MonitorOutcome.rejected m →
      (∃ u, StatusCheck.ok "failed" u
          ∈ (checkStatus env insightId fuel attempts ins).observed) ∨
      StatusCheck.httpError ∈ (checkStatus env insightId fuel attempts ins).observed ∨
      (∃ ms, StatusCheck.netError ms
          ∈ (checkStatus env insightId fuel attempts ins).observed) ∨
      (checkStatus env insightId fuel attempts ins).observed.length + attempts
        = maxAttempts := by
  intro fuel
  induction fuel with
  | zero =>
    intro attempts ins m hsum _
    right; right; right
    show 0 + attempts = maxAttempts
    omega
  | succ fuel ih =>
    intro attempts ins m hsum hrej
    simp only [checkStatus] at hrej ⊢
    cases henv : env (attempts + 1) with
    | netError msg =>
      right; right; left
      exact ⟨msg, by simp⟩
    | httpError =>
      right; left
      simp
    | ok status url =>
      rw [henv] at hrej
      simp only [] at hrej ⊢
      by_cases hcomp : status = "completed"
      · rw [if_pos hcomp] at hrej
        simp at hrej
      · rw [if_neg hcomp] at hrej ⊢
        by_cases hfail : status = "failed"
        · left
          exact ⟨url, by simp [hfail]⟩
        · rw [if_neg hfail] at hrej ⊢
          by_cases htime : maxAttempts ≤ attempts + 1
          · right; right; right
            rw [if_pos htime]
            simp only [List.length_cons, List.length_nil]
            omega
          · rw [if_neg htime] at hrej ⊢
            simp only [] at hrej
            rcases ih (attempts + 1) ins m (by omega) hrej with h | h | h | h
            · left
              obtain ⟨u, hu⟩ := h
              exact ⟨u, by simp only [List.mem_cons]; exact Or.inr hu⟩
            · right; left
              simp only [List.mem_cons]
              exact Or.inr h
            · right; right; left
              obtain ⟨ms, hms⟩ := h
              exact ⟨ms, by simp only [List.mem_cons]; exact Or.inr hms⟩
            · right; right; right
              simp only [List.length_cons]
              omega

/-- C6: `monitorVideoProgress` always terminates and settles exactly once:
it performs at most `maxAttempts` (1200) status checks, it resolves iff one
of its checks observed status `completed`, and when it rejects, some check
observed status `failed`, or a status request failed (non-ok response or
thrown fetch), or the full attempt budget of 1200 checks was used without
completion. -/
theorem C6_monitor_bounded_settles (env : Nat → StatusCheck)
    (insightId : String) (ins : List Insight) :
    (monitorVideoProgress env insightId ins).observed.length ≤ maxAttempts ∧
    ((monitorVideoProgress env insightId ins).outcome = MonitorOutcome.resolved
      ↔ ∃ u, StatusCheck.ok "completed" u
          ∈ (monitorVideoProgress env insightId ins).observed) ∧
    (∀ m, (monitorVideoProgress env insightId ins).outcome
        = MonitorOutcome.rejected m →
      (∃ u, StatusCheck.ok "failed" u
          ∈ (monitorVideoProgress env insightId ins).observed) ∨
      StatusCheck.httpError ∈ (monitorVideoProgress env insightId ins).observed ∨
      (∃ ms, StatusCheck.netError ms
          ∈ (monitorVideoProgress env insightId ins).observed) ∨
      (monitorVideoProgress env insightId ins).observed.length = maxAttempts) := by
  refine ⟨checkStatus_observed_le env insightId maxAttempts 0 ins,
    checkStatus_resolved_iff env insightId maxAttempts 0 ins, fun m hm => ?_⟩
  have h := checkStatus_rejected_cases env insightId maxAttempts 0 ins m
    (by omega) hm
  simpa using h

/-- Witness for C6: a monitor whose first check observes `completed`
resolves within the attempt budget. -/
theorem C6_witness :
    (monitorVideoProgress (fun _ => StatusCheck.ok "completed" (some "url"))
        "insight_1" []).outcome = MonitorOutcome.resolved ∧
    (monitorVideoProgress (fun _ => StatusCheck.ok "completed" (some "url"))
        "insight_1" []).observed.length ≤ maxAttempts := by
  have h := C6_monitor_bounded_settles
    (fun _ => StatusCheck.ok "completed" (some "url")) "insight_1" []
  exact ⟨h.2.1.mpr ⟨some "url", by decide⟩, h.1⟩

/-! ## Progress-percentage lemmas (C4) -/

theorem progressPercent_nonneg (a : Nat) : 0 ≤ progressPercent a := by
  have hx : (0 : ℚ) ≤ (a : ℚ) / (maxAttempts : ℚ) * 60 := by positivity
  exact le_min (by norm_num) (by linarith)

theorem progressPercent_le_90 (a : Nat) : progressPercent a ≤ 90 :=
  min_le_left _ _

theorem progressPercent_le_100 (a : Nat) : progressPercent a ≤ 100 :=
  le_trans (progressPercent_le_90 a) (by norm_num)

theorem progressPercent_ge_30 (a : Nat) : 30 ≤ progressPercent a := by
  have hx : (0 : ℚ) ≤ (a : ℚ) / (maxAttempts : ℚ) * 60 := by positivity
  exact le_min (by norm_num) (by linarith)

theorem progressPercent_mono {a b : Nat} (h : a ≤ b) :
    progressPercent a ≤ progressPercent b := by
  have hab : (a : ℚ) ≤ (b : ℚ) := by exact_mod_cast h
  have hM : (0 : ℚ) < (maxAttempts : ℚ) := by norm_num [maxAttempts]
  unfold progressPercent
  refine min_le_min le_rfl ?_
  have h1 : (a : ℚ) / (maxAttempts : ℚ) ≤ (b : ℚ) / (maxAttempts : ℚ) :=
    (div_le_div_iff_of_pos_right hM).mpr hab
  have h2 := mul_le_mul_of_nonneg_right h1 (by norm_num : (0 : ℚ) ≤ 60)
  linarith

theorem checkStatus_trace_bounds (env : Nat → StatusCheck) (insightId : String) :
    ∀ (fuel attempts : Nat) (ins : List Insight),
      ∀ p ∈ (checkStatus env insightId fuel attempts ins).trace,
        0 ≤ p.progress ∧ p.progress ≤ 100 := by
  intro fuel
  induction fuel with
  | zero => intro attempts ins p hp; simp [checkStatus] at hp
  | succ fuel ih =>
    intro attempts ins
    simp only [checkStatus]
    cases henv : env (attempts + 1) with
    | netError msg =>
      intro p hp
      simp only [] at hp
      simp at hp
      subst hp
      norm_num
    | httpError =>
      intro p hp
      simp only [] at hp
      simp at hp
      subst hp
      norm_num
    | ok status url =>
      simp only []
      by_cases hcomp : status = "completed"
      · rw [if_pos hcomp]
        intro p hp
        simp at hp
        rcases hp with hp | hp <;> subst hp
        · exact ⟨progressPercent_nonneg _, progressPercent_le_100 _⟩
        · norm_num
      · rw [if_neg hcomp]
        by_cases hfail : status = "failed"
        · rw [if_pos hfail]
          intro p hp
          simp at hp
          rcases hp with hp | hp <;> subst hp
          · exact ⟨progressPercent_nonneg _, progressPercent_le_100 _⟩
          · norm_num
        · rw [if_neg hfail]
          by_cases htime : maxAttempts ≤ attempts + 1
          · rw [if_pos htime]
            intro p hp
            simp at hp
            rcases hp with hp | hp <;> subst hp
            · exact ⟨progressPercent_nonneg _, progressPercent_le_100 _⟩
            · norm_num
          · rw [if_neg htime]
            intro p hp
            simp only [List.mem_cons] at hp
            rcases hp with hp | hp
            · subst hp
              exact ⟨progressPercent_nonneg _, progressPercent_le_100 _⟩
            · exact ih (attempts + 1) ins p hp

theorem checkStatus_trace_shape (env : Nat → StatusCheck) (insightId : String) :
    ∀ (fuel attempts : Nat) (ins : List Insight),
      ∃ t1 t2,
        (checkStatus env insightId fuel attempts ins).trace = t1 ++ t2 ∧
        List.Chain' (fun p q : Progress => p.progress ≤ q.progress) t1 ∧
        (∀ p ∈ t1, progressPercent (attempts + 1) ≤ p.progress) ∧
        (∀ p ∈ t2, p.status = "failed" ∧ p.progress = 0) := by
  intro fuel
  induction fuel with
  | zero =>
    intro attempts ins
    exact ⟨[], [], by simp [checkStatus], by simp, by simp, by simp⟩
  | succ fuel ih =>
    intro attempts ins
    simp only [checkStatus]
    cases henv : env (attempts + 1) with
    | netError msg =>
      refine ⟨[], [⟨"failed", 0, msg⟩], by simp, by simp, by simp, ?_⟩
      intro p hp
      simp at hp
      subst hp
      exact ⟨rfl, rfl⟩
    | httpError =>
      refine ⟨[], [⟨"failed", 0, "상태 확인 실패"⟩], by simp, by simp, by simp, ?_⟩
      intro p hp
      simp at hp
      subst hp
      exact ⟨rfl, rfl⟩
    | ok status url =>
      simp only []
      by_cases hcomp : status = "completed"
      · rw [if_pos hcomp]
        refine ⟨[⟨status, progressPercent (attempts + 1),
            getStatusMessage status (attempts + 1) maxAttempts⟩,
          ⟨"completed", 100, "영상 생성 완료!"⟩], [], by simp, ?_, ?_, by simp⟩
        · simp [List.chain'_cons]
          exact progressPercent_le_100 _
        · intro p hp
          simp at hp
          rcases hp with hp | hp <;> subst hp
          · exact le_rfl
          · exact progressPercent_le_100 _
      · rw [if_neg hcomp]
        by_cases hfail : status = "failed"
        · rw [if_pos hfail]
          refine ⟨[⟨status, progressPercent (attempts + 1),
              getStatusMessage status (attempts + 1) maxAttempts⟩],
            [⟨"failed", 0, "영상 생성 실패"⟩], by simp, by simp, ?_, ?_⟩
          · intro p hp
            simp at hp
            subst hp
            exact le_rfl
          · intro p hp
            simp at hp
            subst hp
            exact ⟨rfl, rfl⟩
        · rw [if_neg hfail]
          by_cases htime : maxAttempts ≤ attempts + 1
          · rw [if_pos htime]
            refine ⟨[⟨status, progressPercent (attempts + 1),
                getStatusMessage status (attempts + 1) maxAttempts⟩],
              [⟨"failed", 0, "시간 초과"⟩], by simp, by simp, ?_, ?_⟩
            · intro p hp
              simp at hp
              subst hp
              exact le_rfl
            · intro p hp
              simp at hp
              subst hp
              exact ⟨rfl, rfl⟩
          · rw [if_neg htime]
            obtain ⟨t1, t2, heq, hch, hge, ht2⟩ := ih (attempts + 1) ins
            refine ⟨⟨status, progressPercent (attempts + 1),
                getStatusMessage status (attempts + 1) maxAttempts⟩ :: t1, t2,
              ?_, ?_, ?_, ht2⟩
            · simp only [List.cons_append]
              rw [← heq]
            · rw [List.chain'_cons']
              refine ⟨?_, hch⟩
              intro q hq
              have hq' : q ∈ t1 := List.mem_of_mem_head? hq
              exact le_trans (progressPercent_mono (Nat.le_succ _)) (hge q hq')
            · intro p hp
              simp only [List.mem_cons] at hp
              rcases hp with hp | hp
              · subst hp; exact le_rfl
              · exact le_trans (progressPercent_mono (Nat.le_succ _)) (hge p hp)

/-- C4 counterexample: the claimed monotonicity of stored
`progress_percent` values fails on a failed run — after storing 10 at run
start, the failure handler stores 0, a strict decrease before the terminal
`failed` update completes the trace. -/
theorem C4_counterexample :
    ¬ List.Chain' (· ≤ ·)
      ((generateNewInsight (GenResponse.notOk 500 "서버 오류")
          (fun _ => StatusCheck.httpError) 1 "2025-01-27"
          ⟨[], false, ⟨"", 0, ""⟩, none⟩).trace.map
        fun p => p.progress) := by
  intro h
  simp [generateNewInsight, List.chain'_cons] at h
  norm_num at h

/-- C4 (amended): within one insight-generation run every stored
`progress_percent` lies in [0,100], and the stored sequence is
monotonically non-decreasing (plateaus allowed) up to and including a
terminal `completed` update; failure handling, however, resets
`progress_percent` to 0 — the trace splits into a non-decreasing prefix
followed by a (possibly empty) suffix of `failed` updates carrying 0. -/
theorem C4_progress_amended (genv : GenResponse) (menv : Nat → StatusCheck)
    (now : Nat) (today : String) (st : PageState) :
    (∀ p ∈ (generateNewInsight genv menv now today st).trace,
      0 ≤ p.progress ∧ p.progress ≤ 100) ∧
    ∃ t1 t2,
      (generateNewInsight genv menv now today st).trace = t1 ++ t2 ∧
      List.Chain' (· ≤ ·) (t1.map fun p => p.progress) ∧
      ∀ p ∈ t2, p.status = "failed" ∧ p.progress = 0 := by
  cases genv with
  | fetchFailed msg =>
    constructor
    · intro p hp
      simp [generateNewInsight] at hp
      rcases hp with hp | hp <;> subst hp <;> norm_num
    · refine ⟨[⟨"starting", 10, "새로운 인사이트 생성 중..."⟩],
        [⟨"failed", 0, "생성 실패"⟩], by simp [generateNewInsight], by simp, ?_⟩
      intro p hp
      simp at hp
      subst hp
      exact ⟨rfl, rfl⟩
  | notOk code body =>
    constructor
    · intro p hp
      simp [generateNewInsight] at hp
      rcases hp with hp | hp <;> subst hp <;> norm_num
    · refine ⟨[⟨"starting", 10, "새로운 인사이트 생성 중..."⟩],
        [⟨"failed", 0, "생성 실패"⟩], by simp [generateNewInsight], by simp, ?_⟩
      intro p hp
      simp at hp
      subst hp
      exact ⟨rfl, rfl⟩
  | ok result =>
    obtain ⟨t1, t2, heq, hch, hge, ht2⟩ :=
      checkStatus_trace_shape menv (newInsightOf result now today).id
        maxAttempts 0 (newInsightOf result now today :: st.insights)
    have hbounds := checkStatus_trace_bounds menv (newInsightOf result now today).id
      maxAttempts 0 (newInsightOf result now today :: st.insights)
    have hch' : List.Chain' (· ≤ ·)
        (((⟨"starting", 10, "새로운 인사이트 생성 중..."⟩ : Progress) ::
          (⟨"processing", 30, "영상 생성 중... 약 2-3분 소요 예상"⟩ : Progress) ::
          t1).map fun p => p.progress) := by
      simp only [List.map_cons]
      rw [List.chain'_cons]
      refine ⟨by norm_num, ?_⟩
      rw [List.chain'_cons']
      constructor
      · intro q hq
        rw [List.head?_map] at hq
        cases hh : t1.head? with
        | none => rw [hh] at hq; simp at hq
        | some p =>
          rw [hh] at hq
          simp only [Option.map_some', Option.mem_def, Option.some.injEq] at hq
          subst hq
          have hp1 : p ∈ t1 := List.mem_of_mem_head? (by rw [hh]; rfl)
          exact le_trans (progressPercent_ge_30 1) (hge p hp1)
      · exact (List.chain'_map _).mpr hch
    cases hout : (checkStatus menv (newInsightOf result now today).id
        maxAttempts 0 (newInsightOf result now today :: st.insights)).outcome with
    | resolved =>
      constructor
      · intro p hp
        simp only [generateNewInsight, hout, monitorVideoProgress,
          List.mem_cons] at hp
        rcases hp with hp | hp | hp
        · subst hp; norm_num
        · subst hp; norm_num
        · exact hbounds p hp
      · refine ⟨⟨"starting", 10, "새로운 인사이트 생성 중..."⟩ ::
          ⟨"processing", 30, "영상 생성 중... 약 2-3분 소요 예상"⟩ :: t1, t2, ?_, hch', ht2⟩
        simp only [generateNewInsight, hout, monitorVideoProgress,
          List.cons_append]
        rw [heq]
    | rejected msg =>
      constructor
      · intro p hp
        simp only [generateNewInsight, hout, monitorVideoProgress,
          List.mem_append, List.mem_cons, List.not_mem_nil, or_false] at hp
        rcases hp with (hp | hp | hp) | hp
        · subst hp; norm_num
        · subst hp; norm_num
        · exact hbounds p hp
        · subst hp; norm_num
      · refine ⟨⟨"starting", 10, "새로운 인사이트 생성 중..."⟩ ::
          ⟨"processing", 30, "영상 생성 중... 약 2-3분 소요 예상"⟩ :: t1,
          t2 ++ [⟨"failed", 0, "생성 실패"⟩], ?_, hch', ?_⟩
        · simp only [generateNewInsight, hout, monitorVideoProgress]
          rw [heq]
          simp [List.append_assoc]
        · intro p hp
          simp only [List.mem_append, List.mem_singleton] at hp
          rcases hp with hp | hp
          · exact ht2 p hp
          · subst hp; exact ⟨rfl, rfl⟩

end Mirae
